import Mathlib

/-!
# Verification of `shared/k8shelpers.go`

A shallow embedding of the resource builders (`NewPod`, `NewService`), of the
cluster client factory (`GetClientSet`, `buildOutOfClusterConfig`,
`GetClientOutOfCluster`) and of the flag helper (`CreateKubeConfig`),
followed by the theorems settling the claims C1 .. C10.

Conventions of the embedding

* Go `string` is `String`; Go `int32` / `int` values are `Int` (no arithmetic
  is performed on them, `int(port)` is value preserving).
* Go `map[string]string` literals are association lists.
* Kubernetes API structs are structures carrying the fields the source sets;
  a Go pointer field is an `Option`, an omitted string field is `""`.
* A Go function returning `(T, error)` returns a `Res T`: the value together
  with an optional error.
* Effects (library calls, printing, `log.Fatalf`, a panic) are recorded in a
  trace; a run whose `result` is `none` is a run in which the process ended,
  through `log.Fatalf` or through a panic, before the function returned.
-/

set_option autoImplicit false
set_option linter.dupNamespace false

namespace K8sHelpers

/-! ## Kubernetes API objects (`k8s.io/api/core/v1`, `metav1`) -/

/-- Go `type Protocol string`. -/
abbrev Protocol := String
/-- Constant `core.ProtocolUDP`. -/
def ProtocolUDP : Protocol := "UDP"

/-- Go `type RestartPolicy string`. -/
abbrev RestartPolicy := String
/-- Constant `core.RestartPolicyNever`. -/
def RestartPolicyNever : RestartPolicy := "Never"

/-- Go `type DNSPolicy string`. -/
abbrev DNSPolicy := String
/-- Constant `core.DNSClusterFirstWithHostNet`. -/
def DNSClusterFirstWithHostNet : DNSPolicy := "ClusterFirstWithHostNet"

/-- Go `type ServiceType string`. -/
abbrev ServiceType := String

/-- Fields of `metav1.ObjectMeta` set by the source. -/
structure ObjectMeta where
  Name : String
  Labels : List (String × String) := []
  deriving DecidableEq, Repr

/-- Struct `core.ContainerPort`. -/
structure ContainerPort where
  Name : String
  Protocol : Protocol
  ContainerPort : Int
  deriving DecidableEq, Repr

/-- Struct `core.LocalObjectReference`. -/
structure LocalObjectReference where
  Name : String
  deriving DecidableEq, Repr

/-- Struct `core.SecretKeySelector`. -/
structure SecretKeySelector where
  LocalObjectReference : LocalObjectReference
  Key : String
  deriving DecidableEq, Repr

/-- Struct `core.EnvVarSource` (only the secret reference is used). -/
structure EnvVarSource where
  SecretKeyRef : Option SecretKeySelector
  deriving DecidableEq, Repr

/-- Struct `core.EnvVar`: a literal `Value` and an optional `ValueFrom`. -/
structure EnvVar where
  Name : String
  Value : String := ""
  ValueFrom : Option EnvVarSource := none
  deriving DecidableEq, Repr

/-- Struct `core.VolumeMount`. -/
structure VolumeMount where
  Name : String
  MountPath : String
  deriving DecidableEq, Repr

/-- Struct `core.Container`. -/
structure Container where
  Name : String
  Image : String
  Ports : List ContainerPort
  Env : List EnvVar
  VolumeMounts : List VolumeMount
  deriving DecidableEq, Repr

/-- Struct `core.AzureFileVolumeSource`. -/
structure AzureFileVolumeSource where
  SecretName : String
  ShareName : String
  ReadOnly : Bool
  deriving DecidableEq, Repr

/-- Struct `core.VolumeSource` (only the Azure file source is used). -/
structure VolumeSource where
  AzureFile : Option AzureFileVolumeSource
  deriving DecidableEq, Repr

/-- Struct `core.Volume`. -/
structure Volume where
  Name : String
  VolumeSource : VolumeSource
  deriving DecidableEq, Repr

/-- Struct `core.PodSpec`. -/
structure PodSpec where
  Containers : List Container
  Volumes : List Volume
  HostNetwork : Bool
  DNSPolicy : DNSPolicy
  RestartPolicy : RestartPolicy
  deriving DecidableEq, Repr

/-- Struct `core.Pod`. -/
structure Pod where
  ObjectMeta : ObjectMeta
  Spec : PodSpec
  deriving DecidableEq, Repr

/-- Struct `core.ServicePort`. -/
structure ServicePort where
  Name : String
  Protocol : Protocol
  Port : Int
  deriving DecidableEq, Repr

/-- Struct `core.ServiceSpec`. -/
structure ServiceSpec where
  Ports : List ServicePort
  Selector : List (String × String)
  Type_ : ServiceType
  deriving DecidableEq, Repr

/-- Struct `core.Service`. -/
structure Service where
  ObjectMeta : ObjectMeta
  Spec : ServiceSpec
  deriving DecidableEq, Repr

/-- Lookup of a key in a Go map literal. -/
def mapGet (m : List (String × String)) (k : String) : Option String :=
  (m.find? (fun kv => kv.1 == k)).map Prod.snd

/-- The entries of an environment list that carry the given name. -/
def envEntries (env : List EnvVar) (name : String) : List EnvVar :=
  env.filter (fun e => e.Name == name)

/-- The values of a Go `int32`. -/
def inInt32 (i : Int) : Prop := -2147483648 ≤ i ∧ i ≤ 2147483647

instance (i : Int) : Decidable (inInt32 i) := by
  unfold inInt32
  infer_instance

/-! ## `strconv.Itoa` -/

/-- The ASCII digit of `d` (`"0123456789"[d]` for `d < 10`). -/
def digitChar (d : Nat) : Char := Char.ofNat (48 + d)

/-- The digit loop of `strconv.formatBits` in base 10: the least significant
digit is produced first and written in front of the digits already produced. -/
def formatBitsLoop : Nat → Nat → List Char → List Char
  | 0, _, acc => acc
  | fuel + 1, u, acc =>
    if u < 10 then digitChar u :: acc
    else formatBitsLoop fuel (u / 10) (digitChar (u % 10) :: acc)

/-- Decimal digits of `u`, most significant first. -/
def formatBits (u : Nat) : List Char := formatBitsLoop (u + 1) u []

/-- Go `strconv.Itoa`: the base-10 rendering, with a leading `-` for negatives. -/
def Itoa (i : Int) : String :=
  if i < 0 then String.mk ('-' :: formatBits i.natAbs) else String.mk (formatBits i.natAbs)

/-! ## The resource builders -/

/-- Go `NewPod`: returns a Kubernetes Pod struct. -/
def NewPod (name : String) (port : Int) (setSessionsURL : String) : Pod :=
  { ObjectMeta := { Name := name, Labels := [("server", name)] }
    Spec :=
      { Containers :=
          [ { Name := "gameserver"
              Image := "docker.io/dgkanatsios/docker_openarena_k8s:latest"
              Ports :=
                [ { Name := "port1", Protocol := ProtocolUDP, ContainerPort := port } ]
              Env :=
                [ { Name := "OA_STARTMAP", Value := "dm4ish" },
                  { Name := "OA_PORT", Value := Itoa port },
                  { Name := "STORAGE_ACCOUNT_NAME"
                    ValueFrom := some
                      { SecretKeyRef := some
                          { LocalObjectReference := { Name := "openarena-storage-secret" }
                            Key := "azurestorageaccountname" } } },
                  { Name := "STORAGE_ACCOUNT_KEY"
                    ValueFrom := some
                      { SecretKeyRef := some
                          { LocalObjectReference := { Name := "openarena-storage-secret" }
                            Key := "azurestorageaccountkey" } } },
                  { Name := "SERVER_NAME", Value := name },
                  { Name := "SET_SESSIONS_URL", Value := setSessionsURL } ]
              VolumeMounts := [ { Name := "openarenavolume", MountPath := "/data" } ] } ]
        Volumes :=
          [ { Name := "openarenavolume"
              VolumeSource :=
                { AzureFile := some
                    { SecretName := "openarena-storage-secret"
                      ShareName := "openarenadata"
                      ReadOnly := false } } } ]
        HostNetwork := true
        DNSPolicy := DNSClusterFirstWithHostNet
        RestartPolicy := RestartPolicyNever } }

/-- Go `NewService`: returns a Kubernetes Service struct. -/
def NewService (name : String) (port : Int) : Service :=
  { ObjectMeta := { Name := name }
    Spec :=
      { Ports := [ { Name := "port1", Protocol := ProtocolUDP, Port := port } ]
        Selector := [("server", name)]
        Type_ := "LoadBalancer" } }

/-! ## Reading a decimal integer back -/

/-- Value of a non-empty string of ASCII digits, `none` on anything else. -/
def parseDigits (cs : List Char) : Option Nat :=
  if cs ≠ [] ∧ cs.all Char.isDigit = true then
    some (cs.foldl (fun a c => 10 * a + (c.toNat - 48)) 0)
  else none

/-- A decimal integer: an optional sign followed by one or more ASCII digits. -/
def parseDecimal (s : String) : Option Int :=
  match s.data with
  | [] => none
  | c :: cs =>
    if c = '-' then (parseDigits cs).map (fun (n : Nat) => -Int.ofNat n)
    else if c = '+' then (parseDigits cs).map (fun (n : Nat) => Int.ofNat n)
    else (parseDigits (c :: cs)).map (fun (n : Nat) => Int.ofNat n)

/-! ## The process environment and the client libraries -/

/-- The process environment: the value of each variable that is set. -/
abbrev Environ := String → Option String

/-- Go `os.Getenv`: the value of the variable, `""` when it is not set. -/
def Getenv (env : Environ) (key : String) : String := (env key).getD ""

/-- A Go `(T, error)` return: the value and the error, `none` for `nil`. -/
structure Res (α : Type) where
  val : α
  err : Option String
  deriving DecidableEq, Repr

/-- The library steps the factory calls: `rest.InClusterConfig`,
`clientcmd.BuildConfigFromFlags`, `kubernetes.NewForConfig` and the
`NewForConfig` of the generated multiplayer game server clientset.

`Cfg` is a `rest.Config` and a `*rest.Config` is an `Option Cfg`, `none` for
the nil pointer. The source uses the pointer returned by `InClusterConfig`
even when the error is not nil, so that step returns an `Option Cfg`. The
pointer returned by `BuildConfigFromFlags` is used only when the error is nil,
where it points to a configuration. The two `NewForConfig` are given on
configurations; what a call on the nil pointer does is part of the callers
below. -/
structure Lib (Cfg Cli Mgs : Type) where
  InClusterConfig : Res (Option Cfg)
  BuildConfigFromFlags : String → String → Res Cfg
  KubernetesNewForConfig : Cfg → Res Cli
  MgsNewForConfig : Cfg → Res Mgs

/-- What a run does, in order: the library calls with their arguments (the
configuration argument is a pointer, `none` for nil), the lines written by
`fmt.Println`, the message of a `log.Fatalf` and the message of a panic. -/
inductive Event (Cfg : Type) where
  | InClusterConfig
  | BuildConfigFromFlags (masterUrl kubeconfigPath : String)
  | KubernetesNewForConfig (config : Option Cfg)
  | MgsNewForConfig (config : Option Cfg)
  | Println (line : String)
  | Fatalf (msg : String)
  | Panic (msg : String)
  deriving DecidableEq, Repr

/-- The message of the Go runtime when a nil pointer is dereferenced. -/
def nilDereference : String :=
  "runtime error: invalid memory address or nil pointer dereference"

/-- The outcome of a run: its trace, and the returned value, `none` when the
process ended (`log.Fatalf` or a panic) before the function returned. -/
structure Run (Cfg α : Type) where
  trace : List (Event Cfg)
  result : Option α
  deriving DecidableEq, Repr

section Factory
variable {Cfg Cli Mgs : Type}

/-- Go `buildOutOfClusterConfig`: the call made to the loader and its result. -/
def buildOutOfClusterConfig (env : Environ) (lib : Lib Cfg Cli Mgs) : Event Cfg × Res Cfg :=
  let kubeconfigPath := Getenv env "KUBECONFIG"
  let kubeconfigPath := if kubeconfigPath = "" then "~/.kube/config" else kubeconfigPath
  (Event.BuildConfigFromFlags "" kubeconfigPath, lib.BuildConfigFromFlags "" kubeconfigPath)

/-- Go `GetClientOutOfCluster`: returns the two clients from outside of the
cluster; each failing step ends the process through `log.Fatalf`. -/
def GetClientOutOfCluster (env : Environ) (lib : Lib Cfg Cli Mgs) : Run Cfg (Cli × Mgs) :=
  let (call, config) := buildOutOfClusterConfig env lib
  match config.err with
  | some err => ⟨[call, Event.Fatalf ("Can not get kubernetes config: " ++ err)], none⟩
  | none =>
    let clientset := lib.KubernetesNewForConfig config.val
    match clientset.err with
    | some err =>
      ⟨[call, Event.KubernetesNewForConfig (some config.val),
        Event.Fatalf ("Can not create clientset for config: " ++ err)], none⟩
    | none =>
      let mgs := lib.MgsNewForConfig config.val
      match mgs.err with
      | some err =>
        ⟨[call, Event.KubernetesNewForConfig (some config.val), Event.MgsNewForConfig (some config.val),
          Event.Fatalf ("GetClientOutOfCluster: " ++ err)], none⟩
      | none =>
        ⟨[call, Event.KubernetesNewForConfig (some config.val), Event.MgsNewForConfig (some config.val)],
          some (clientset.val, mgs.val)⟩

/-- The line printed by `if err != nil { fmt.Println(err) }`, if any. -/
def printErr (err : Option String) : List (Event Cfg) :=
  match err with
  | some e => [Event.Println e]
  | none => []

/-- Go `GetClientSet`: returns the two clients, from inside the cluster when
`RUN_IN_K8S` is empty or `"true"`, through `GetClientOutOfCluster` otherwise.

In the cluster the error of `rest.InClusterConfig` is printed and the run goes
on with the returned pointer. `kubernetes.NewForConfig(c)` begins with
`configShallowCopy := *c`: called on the nil pointer it panics, and the run
ends there. -/
def GetClientSet (env : Environ) (lib : Lib Cfg Cli Mgs) : Run Cfg (Cli × Mgs) :=
  let runInK8s := Getenv env "RUN_IN_K8S"
  if runInK8s = "" ∨ runInK8s = "true" then
    let config := lib.InClusterConfig
    let t1 := Event.InClusterConfig :: printErr config.err
    match config.val with
    | none => ⟨t1 ++ [Event.KubernetesNewForConfig none, Event.Panic nilDereference], none⟩
    | some cfg =>
      let clientset := lib.KubernetesNewForConfig cfg
      let t2 := t1 ++ Event.KubernetesNewForConfig (some cfg) :: printErr clientset.err
      let mgs := lib.MgsNewForConfig cfg
      let t3 := t2 ++ [Event.MgsNewForConfig (some cfg)]
      match mgs.err with
      | some err => ⟨t3 ++ [Event.Fatalf ("getClusterConfig: " ++ err)], none⟩
      | none => ⟨t3, some (clientset.val, mgs.val)⟩
  else
    GetClientOutOfCluster env lib

end Factory

/-! ## `filepath.Join` (Unix) and the flag helper -/

/-- The inner loop of the `..` case of `filepath.Clean`: starting from index
`w`, step back while `w > dotdot` and the byte at `w` is not a separator. -/
def backtrack (out : List Char) (dotdot : Nat) : Nat → Nat
  | 0 => 0
  | w + 1 => if w + 1 > dotdot ∧ out.getD (w + 1) '/' ≠ '/' then backtrack out dotdot w else w + 1

/-- The main loop of `filepath.Clean`: `path` is what remains to be read,
`out` what has been written, `dotdot` the index where `..` must stop. Every
round reads at least one byte, so `fuel` need not exceed the length of `path`. -/
def cleanLoop (rooted : Bool) : Nat → List Char → List Char → Nat → List Char
  | 0, _, out, _ => out
  | fuel + 1, path, out, dotdot =>
    match path with
    | [] => out
    | c :: rest =>
      if c = '/' then
        cleanLoop rooted fuel rest out dotdot
      else if c = '.' ∧ (rest = [] ∨ rest.head? = some '/') then
        cleanLoop rooted fuel rest out dotdot
      else if c = '.' ∧ rest.head? = some '.' ∧
          (rest.tail = [] ∨ rest.tail.head? = some '/') then
        if out.length > dotdot then
          cleanLoop rooted fuel rest.tail
            (out.take (backtrack out dotdot (out.length - 1))) dotdot
        else if rooted = false then
          let out1 := (if out.length > 0 then out ++ ['/'] else out) ++ ['.', '.']
          cleanLoop rooted fuel rest.tail out1 out1.length
        else
          cleanLoop rooted fuel rest.tail out dotdot
      else
        let out1 :=
          if (rooted = true ∧ out.length ≠ 1) ∨ (rooted = false ∧ out.length ≠ 0) then
            out ++ ['/']
          else out
        cleanLoop rooted fuel (rest.dropWhile (fun x => x ≠ '/'))
          (out1 ++ c :: rest.takeWhile (fun x => x ≠ '/')) dotdot

/-- Go `filepath.Clean` on Unix (no volume name, separator `/`). -/
def pathClean (path : List Char) : List Char :=
  if path = [] then ['.']
  else
    let rooted : Bool := path.head? = some '/'
    let out :=
      if rooted then cleanLoop rooted path.length path.tail ['/'] 1
      else cleanLoop rooted path.length path [] 0
    if out = [] then ['.'] else out

/-- Go `filepath.Join` on Unix: the elements from the first non-empty one on,
separated by `/`, cleaned; `""` when every element is empty. -/
def Join : List String → String
  | [] => ""
  | e :: es =>
    if e ≠ "" then String.mk (pathClean (String.intercalate "/" (e :: es)).data)
    else Join es

/-- A flag registered through `flag.String(name, value, usage)`; the returned
pointer holds `DefValue` until the command line is parsed. -/
structure Flag where
  Name : String
  DefValue : String
  Usage : String
  deriving DecidableEq, Repr

/-- Go `CreateKubeConfig`, as a function of what `homedir.HomeDir()` returns. -/
def CreateKubeConfig (home : String) : Flag :=
  if home ≠ "" then
    ⟨"kubeconfig", Join [home, ".kube", "config"], "(optional) absolute path to the kubeconfig file"⟩
  else
    ⟨"kubeconfig", "", "absolute path to the kubeconfig file"⟩

/-- A path element that is a plain name: not empty, without a separator and
neither `.` nor `..`. -/
def ordinaryName (s : List Char) : Prop :=
  s ≠ [] ∧ '/' ∉ s ∧ s ≠ ['.'] ∧ s ≠ ['.', '.']

instance (s : List Char) : Decidable (ordinaryName s) := by
  unfold ordinaryName
  infer_instance

/-- The text `/s1/s2/.../sn` for the elements `s1`, `s2`, .., `sn`. -/
def slashed : List (List Char) → List Char
  | [] => []
  | s :: ss => '/' :: s ++ slashed ss

end K8sHelpers

namespace K8sHelpers

/-! ## Concrete environments and libraries used in the evaluated runs -/

/-- An environment in which exactly one variable is set. -/
def singleVar (key value : String) : Environ := fun k => if k = key then some value else none

/-- A library over numbered configurations and clients in which every step
succeeds. -/
def okLib : Lib Nat Nat Nat :=
  { InClusterConfig := ⟨some 1, none⟩
    BuildConfigFromFlags := fun _ _ => ⟨2, none⟩
    KubernetesNewForConfig := fun c => ⟨c + 10, none⟩
    MgsNewForConfig := fun c => ⟨c + 20, none⟩ }

/-- The error `rest.ErrNotInCluster`. -/
def ErrNotInCluster : String :=
  "unable to load in-cluster configuration, KUBERNETES_SERVICE_HOST and " ++
    "KUBERNETES_SERVICE_PORT must be defined"

/-- A library as seen by a process that runs outside of a cluster:
`rest.InClusterConfig` returns `nil, ErrNotInCluster`; the other steps would
succeed on a configuration. -/
def notInClusterLib : Lib Nat Nat Nat :=
  { InClusterConfig := ⟨none, some ErrNotInCluster⟩
    BuildConfigFromFlags := fun _ _ => ⟨2, none⟩
    KubernetesNewForConfig := fun c => ⟨c + 10, none⟩
    MgsNewForConfig := fun c => ⟨c + 20, none⟩ }

/-- A library in which the in-cluster configuration is obtained and building
the generic client fails, while the custom-resource client is built. -/
def noClientLib : Lib Nat Nat Nat :=
  { InClusterConfig := ⟨some 1, none⟩
    BuildConfigFromFlags := fun _ _ => ⟨2, none⟩
    KubernetesNewForConfig := fun _ => ⟨0, some "bad config"⟩
    MgsNewForConfig := fun c => ⟨c + 20, none⟩ }

end K8sHelpers

namespace K8sHelpers

/-! ## The resource builders: claims C1 .. C5 -/

/-- C1: the Pod and the Service built from one name agree. Both are named
`name`, the labels of the Pod and the selector of the Service are exactly
`{"server": name}`, so looking up `"server"` gives `name` on both sides, and
every selector entry of the Service is matched by the labels of the Pod. -/
theorem C1_pod_service_agree (name : String) (p q : Int) (u : String) :
    (NewPod name p u).ObjectMeta.Name = name ∧
    (NewService name q).ObjectMeta.Name = name ∧
    (NewPod name p u).ObjectMeta.Labels = [("server", name)] ∧
    (NewService name q).Spec.Selector = [("server", name)] ∧
    mapGet (NewService name q).Spec.Selector "server" = some name ∧
    mapGet (NewPod name p u).ObjectMeta.Labels "server" = some name ∧
    ((NewService name q).Spec.Selector.all
      (fun kv => mapGet (NewPod name p u).ObjectMeta.Labels kv.1 == some kv.2)) = true := by
  simp [NewPod, NewService, mapGet]

/-- C2: the Pod built by `NewPod` is named `name`, has exactly one container
with exactly one port, of protocol UDP and number `udpPort`; its environment
holds `SERVER_NAME` with literal value `name` and `SET_SESSIONS_URL` with
literal value `callbackURL`; restart policy `Never`, host networking on. -/
theorem C2_pod_shape (name : String) (udpPort : Int) (callbackURL : String) :
    (NewPod name udpPort callbackURL).ObjectMeta.Name = name ∧
    (∃ c, (NewPod name udpPort callbackURL).Spec.Containers = [c] ∧
      (∃ cp, c.Ports = [cp] ∧ cp.Protocol = ProtocolUDP ∧ cp.ContainerPort = udpPort) ∧
      envEntries c.Env "SERVER_NAME" = [{ Name := "SERVER_NAME", Value := name }] ∧
      envEntries c.Env "SET_SESSIONS_URL" =
        [{ Name := "SET_SESSIONS_URL", Value := callbackURL }]) ∧
    (NewPod name udpPort callbackURL).Spec.RestartPolicy = RestartPolicyNever ∧
    (NewPod name udpPort callbackURL).Spec.RestartPolicy = "Never" ∧
    (NewPod name udpPort callbackURL).Spec.HostNetwork = true := by
  refine ⟨rfl, ⟨_, rfl, ⟨_, rfl, rfl, rfl⟩, ?_, ?_⟩, rfl, rfl, rfl⟩ <;>
    simp [envEntries, List.filter]

/-- C3: the entries `STORAGE_ACCOUNT_NAME` and `STORAGE_ACCOUNT_KEY` of the
Pod have an empty literal value and a `ValueFrom` that refers to the secret
`openarena-storage-secret`, keys `azurestorageaccountname` and
`azurestorageaccountkey`; the same fixed entries for every input. -/
theorem C3_secret_entries_are_references (name : String) (udpPort : Int) (callbackURL : String) :
    ∃ c, (NewPod name udpPort callbackURL).Spec.Containers = [c] ∧
      envEntries c.Env "STORAGE_ACCOUNT_NAME" =
        [{ Name := "STORAGE_ACCOUNT_NAME",
           Value := "",
           ValueFrom := some ⟨some ⟨⟨"openarena-storage-secret"⟩, "azurestorageaccountname"⟩⟩ }] ∧
      envEntries c.Env "STORAGE_ACCOUNT_KEY" =
        [{ Name := "STORAGE_ACCOUNT_KEY",
           Value := "",
           ValueFrom := some ⟨some ⟨⟨"openarena-storage-secret"⟩, "azurestorageaccountkey"⟩⟩ }] := by
  refine ⟨_, rfl, ?_, ?_⟩ <;> simp [envEntries, List.filter]

/-- C4: the environment of the single container has exactly six entries,
named in order `OA_STARTMAP`, `OA_PORT`, `STORAGE_ACCOUNT_NAME`,
`STORAGE_ACCOUNT_KEY`, `SERVER_NAME`, `SET_SESSIONS_URL`; the names are
pairwise distinct. -/
theorem C4_six_environment_entries (name : String) (udpPort : Int) (callbackURL : String) :
    ∃ c, (NewPod name udpPort callbackURL).Spec.Containers = [c] ∧
      c.Env.length = 6 ∧
      c.Env.map EnvVar.Name =
        ["OA_STARTMAP", "OA_PORT", "STORAGE_ACCOUNT_NAME", "STORAGE_ACCOUNT_KEY",
          "SERVER_NAME", "SET_SESSIONS_URL"] ∧
      (c.Env.map EnvVar.Name).Nodup := by
  refine ⟨_, rfl, rfl, rfl, ?_⟩
  simp

/-- C5: the Service built by `NewService` is named `name`, has exactly one
port, of protocol UDP and number `udpPort`, and is of type `LoadBalancer`. -/
theorem C5_service_shape (name : String) (udpPort : Int) :
    (NewService name udpPort).ObjectMeta.Name = name ∧
    (∃ sp, (NewService name udpPort).Spec.Ports = [sp] ∧
      sp.Protocol = ProtocolUDP ∧ sp.Protocol = "UDP" ∧ sp.Port = udpPort) ∧
    (NewService name udpPort).Spec.Type_ = "LoadBalancer" :=
  ⟨rfl, ⟨_, rfl, rfl, rfl, rfl⟩, rfl⟩

end K8sHelpers

namespace K8sHelpers

/-! ## The client factory: claims C6 .. C8 -/

section FactoryTheorems
variable {Cfg Cli Mgs : Type}

/-- C6: `GetClientSet` takes the in-cluster path (it calls
`rest.InClusterConfig`) if and only if `RUN_IN_K8S` is unset, empty or exactly
`"true"`; on that path the kubeconfig loader is never called; for every other
value it returns exactly what `GetClientOutOfCluster` returns. -/
theorem C6_in_cluster_selection (env : Environ) (lib : Lib Cfg Cli Mgs) :
    (Event.InClusterConfig ∈ (GetClientSet env lib).trace ↔
      (env "RUN_IN_K8S" = none ∨ env "RUN_IN_K8S" = some "" ∨
        env "RUN_IN_K8S" = some "true")) ∧
    ((env "RUN_IN_K8S" = none ∨ env "RUN_IN_K8S" = some "" ∨
        env "RUN_IN_K8S" = some "true") →
      ∀ m p, Event.BuildConfigFromFlags m p ∉ (GetClientSet env lib).trace) ∧
    (¬ (env "RUN_IN_K8S" = none ∨ env "RUN_IN_K8S" = some "" ∨
        env "RUN_IN_K8S" = some "true") →
      GetClientSet env lib = GetClientOutOfCluster env lib) := by
  have hcond : (Getenv env "RUN_IN_K8S" = "" ∨ Getenv env "RUN_IN_K8S" = "true") ↔
      (env "RUN_IN_K8S" = none ∨ env "RUN_IN_K8S" = some "" ∨
        env "RUN_IN_K8S" = some "true") := by
    unfold Getenv
    cases env "RUN_IN_K8S" <;> simp
  refine ⟨?_, ?_, ?_⟩
  · rw [← hcond]
    unfold GetClientSet
    by_cases h : Getenv env "RUN_IN_K8S" = "" ∨ Getenv env "RUN_IN_K8S" = "true"
    · simp only [h, if_true, iff_true]
      split
      · simp
      · split <;> simp
    · simp only [h, if_false, iff_false]
      unfold GetClientOutOfCluster buildOutOfClusterConfig
      simp only []
      split
      · simp
      · split
        · simp
        · split <;> simp
  · intro h m p
    rw [← hcond] at h
    unfold GetClientSet
    simp only [h, if_true]
    cases hv : lib.InClusterConfig.val with
    | none => cases lib.InClusterConfig.err <;> simp [printErr]
    | some cfg =>
      cases h1 : lib.InClusterConfig.err <;>
        cases h2 : (lib.KubernetesNewForConfig cfg).err <;>
        cases h3 : (lib.MgsNewForConfig cfg).err <;> simp [printErr, h2, h3]
  · intro h
    rw [← hcond] at h
    unfold GetClientSet
    simp only [h, if_false]

/-- C6, evaluated: with `RUN_IN_K8S=True` (capital T) the factory returns what
`GetClientOutOfCluster` returns. -/
theorem C6_in_cluster_selection_witness :
    ¬ (singleVar "RUN_IN_K8S" "True" "RUN_IN_K8S" = none ∨
        singleVar "RUN_IN_K8S" "True" "RUN_IN_K8S" = some "" ∨
        singleVar "RUN_IN_K8S" "True" "RUN_IN_K8S" = some "true") ∧
    GetClientSet (singleVar "RUN_IN_K8S" "True") okLib =
      GetClientOutOfCluster (singleVar "RUN_IN_K8S" "True") okLib :=
  ⟨by decide, (C6_in_cluster_selection (singleVar "RUN_IN_K8S" "True") okLib).2.2 (by decide)⟩

/-- C7, as stated, fails: with `KUBECONFIG=~/.kube/config` the path handed to
the loader is the literal `~/.kube/config` although the variable is neither
unset nor empty. -/
theorem C7_literal_path_not_only_when_unset :
    ¬ ((buildOutOfClusterConfig (singleVar "KUBECONFIG" "~/.kube/config") okLib).1 =
          Event.BuildConfigFromFlags "" "~/.kube/config" ↔
        (singleVar "KUBECONFIG" "~/.kube/config" "KUBECONFIG" = none ∨
          singleVar "KUBECONFIG" "~/.kube/config" "KUBECONFIG" = some "")) := by
  decide

/-- C7, amended: `buildOutOfClusterConfig` calls the loader once, with the
empty master URL and a path that is the value of `KUBECONFIG` whenever that
value is non-empty and the literal `~/.kube/config` whenever the variable is
unset or empty; the path is that literal only if the variable is unset, empty
or holds that very literal. -/
theorem C7_kubeconfig_path (env : Environ) (lib : Lib Cfg Cli Mgs) :
    ∃ path, buildOutOfClusterConfig env lib =
        (Event.BuildConfigFromFlags "" path, lib.BuildConfigFromFlags "" path) ∧
      (∀ v, env "KUBECONFIG" = some v → v ≠ "" → path = v) ∧
      (env "KUBECONFIG" = none ∨ env "KUBECONFIG" = some "" → path = "~/.kube/config") ∧
      (path = "~/.kube/config" ↔
        (env "KUBECONFIG" = none ∨ env "KUBECONFIG" = some "" ∨
          env "KUBECONFIG" = some "~/.kube/config")) := by
  refine ⟨_, rfl, ?_, ?_, ?_⟩
  · intro v hv hne
    simp [Getenv, hv, hne]
  · rintro (h | h) <;> simp [Getenv, h]
  · unfold Getenv
    cases h : env "KUBECONFIG" with
    | none => simp
    | some v =>
      by_cases hv : v = ""
      · simp [hv]
      · simp [hv]

/-- C7, evaluated: with `KUBECONFIG=/tmp/custom.yaml` the loader is called
with the empty master URL and the path `/tmp/custom.yaml`. -/
theorem C7_kubeconfig_path_witness :
    (buildOutOfClusterConfig (singleVar "KUBECONFIG" "/tmp/custom.yaml") okLib).1 =
      Event.BuildConfigFromFlags "" "/tmp/custom.yaml" := by
  obtain ⟨path, hcall, hset, -, -⟩ :=
    C7_kubeconfig_path (singleVar "KUBECONFIG" "/tmp/custom.yaml") okLib
  have hp : path = "/tmp/custom.yaml" := hset "/tmp/custom.yaml" (by decide) (by decide)
  rw [hcall, hp]

/-- Out of the cluster `GetClientOutOfCluster` ends the process if and only if
one of the three steps fails, and it stops at the first failing step: the
trace holds the calls up to that step followed by the fatal message. -/
theorem GetClientOutOfCluster_steps (env : Environ) (lib : Lib Cfg Cli Mgs) :
    ((GetClientOutOfCluster env lib).result = none ↔
      ((buildOutOfClusterConfig env lib).2.err ≠ none ∨
        (lib.KubernetesNewForConfig (buildOutOfClusterConfig env lib).2.val).err ≠ none ∨
        (lib.MgsNewForConfig (buildOutOfClusterConfig env lib).2.val).err ≠ none)) ∧
    (∀ e, (buildOutOfClusterConfig env lib).2.err = some e →
      GetClientOutOfCluster env lib =
        ⟨[(buildOutOfClusterConfig env lib).1,
          Event.Fatalf ("Can not get kubernetes config: " ++ e)], none⟩) ∧
    (∀ e, (buildOutOfClusterConfig env lib).2.err = none →
      (lib.KubernetesNewForConfig (buildOutOfClusterConfig env lib).2.val).err = some e →
      GetClientOutOfCluster env lib =
        ⟨[(buildOutOfClusterConfig env lib).1,
          Event.KubernetesNewForConfig (some (buildOutOfClusterConfig env lib).2.val),
          Event.Fatalf ("Can not create clientset for config: " ++ e)], none⟩) ∧
    (∀ e, (buildOutOfClusterConfig env lib).2.err = none →
      (lib.KubernetesNewForConfig (buildOutOfClusterConfig env lib).2.val).err = none →
      (lib.MgsNewForConfig (buildOutOfClusterConfig env lib).2.val).err = some e →
      GetClientOutOfCluster env lib =
        ⟨[(buildOutOfClusterConfig env lib).1,
          Event.KubernetesNewForConfig (some (buildOutOfClusterConfig env lib).2.val),
          Event.MgsNewForConfig (some (buildOutOfClusterConfig env lib).2.val),
          Event.Fatalf ("GetClientOutOfCluster: " ++ e)], none⟩) ∧
    ((buildOutOfClusterConfig env lib).2.err = none →
      (lib.KubernetesNewForConfig (buildOutOfClusterConfig env lib).2.val).err = none →
      (lib.MgsNewForConfig (buildOutOfClusterConfig env lib).2.val).err = none →
      GetClientOutOfCluster env lib =
        ⟨[(buildOutOfClusterConfig env lib).1,
          Event.KubernetesNewForConfig (some (buildOutOfClusterConfig env lib).2.val),
          Event.MgsNewForConfig (some (buildOutOfClusterConfig env lib).2.val)],
          some ((lib.KubernetesNewForConfig (buildOutOfClusterConfig env lib).2.val).val,
            (lib.MgsNewForConfig (buildOutOfClusterConfig env lib).2.val).val)⟩) := by
  have hdef : GetClientOutOfCluster env lib =
      match (buildOutOfClusterConfig env lib).2.err with
      | some err =>
        ⟨[(buildOutOfClusterConfig env lib).1,
          Event.Fatalf ("Can not get kubernetes config: " ++ err)], none⟩
      | none =>
        match (lib.KubernetesNewForConfig (buildOutOfClusterConfig env lib).2.val).err with
        | some err =>
          ⟨[(buildOutOfClusterConfig env lib).1,
            Event.KubernetesNewForConfig (some (buildOutOfClusterConfig env lib).2.val),
            Event.Fatalf ("Can not create clientset for config: " ++ err)], none⟩
        | none =>
          match (lib.MgsNewForConfig (buildOutOfClusterConfig env lib).2.val).err with
          | some err =>
            ⟨[(buildOutOfClusterConfig env lib).1,
              Event.KubernetesNewForConfig (some (buildOutOfClusterConfig env lib).2.val),
              Event.MgsNewForConfig (some (buildOutOfClusterConfig env lib).2.val),
              Event.Fatalf ("GetClientOutOfCluster: " ++ err)], none⟩
          | none =>
            ⟨[(buildOutOfClusterConfig env lib).1,
              Event.KubernetesNewForConfig (some (buildOutOfClusterConfig env lib).2.val),
              Event.MgsNewForConfig (some (buildOutOfClusterConfig env lib).2.val)],
              some ((lib.KubernetesNewForConfig (buildOutOfClusterConfig env lib).2.val).val,
                (lib.MgsNewForConfig (buildOutOfClusterConfig env lib).2.val).val)⟩ := rfl
  rw [hdef]
  cases (buildOutOfClusterConfig env lib).2.err <;>
    cases (lib.KubernetesNewForConfig (buildOutOfClusterConfig env lib).2.val).err <;>
    cases (lib.MgsNewForConfig (buildOutOfClusterConfig env lib).2.val).err <;> simp

/-- In the cluster, when `rest.InClusterConfig` returns a configuration
`cfg` (with or without an error), `GetClientSet` ends the process if and only
if building the custom-resource client fails; a failure of the generic client
is printed, the custom-resource step is still called, and the call returns
the value the generic-client step produced. -/
theorem GetClientSet_in_cluster_with_config (env : Environ) (lib : Lib Cfg Cli Mgs)
    (cfg : Cfg)
    (hsel : Getenv env "RUN_IN_K8S" = "" ∨ Getenv env "RUN_IN_K8S" = "true")
    (hcfg : lib.InClusterConfig.val = some cfg) :
    ((GetClientSet env lib).result = none ↔ (lib.MgsNewForConfig cfg).err ≠ none) ∧
    (∀ e, (lib.MgsNewForConfig cfg).err = some e →
      GetClientSet env lib =
        ⟨Event.InClusterConfig :: printErr lib.InClusterConfig.err ++
          Event.KubernetesNewForConfig (some cfg) ::
            printErr (lib.KubernetesNewForConfig cfg).err ++
          [Event.MgsNewForConfig (some cfg), Event.Fatalf ("getClusterConfig: " ++ e)],
          none⟩) ∧
    ((lib.MgsNewForConfig cfg).err = none →
      GetClientSet env lib =
        ⟨Event.InClusterConfig :: printErr lib.InClusterConfig.err ++
          Event.KubernetesNewForConfig (some cfg) ::
            printErr (lib.KubernetesNewForConfig cfg).err ++
          [Event.MgsNewForConfig (some cfg)],
          some ((lib.KubernetesNewForConfig cfg).val, (lib.MgsNewForConfig cfg).val)⟩) := by
  unfold GetClientSet
  simp only [hsel, if_true, hcfg]
  cases lib.InClusterConfig.err <;>
    cases (lib.KubernetesNewForConfig cfg).err <;>
    cases (lib.MgsNewForConfig cfg).err <;> simp [printErr]

/-- The run of `GetClientSet` in the cluster when only the generic client
fails: the error is printed and both clients are returned. -/
theorem GetClientSet_in_cluster_noClientLib :
    GetClientSet (singleVar "RUN_IN_K8S" "true") noClientLib =
      ⟨[Event.InClusterConfig, Event.KubernetesNewForConfig (some 1),
        Event.Println "bad config", Event.MgsNewForConfig (some 1)], some (0, 21)⟩ := by
  decide

/-- C8, where the code departs from the claim: in the cluster, when
`rest.InClusterConfig` fails with error `e` and returns the nil configuration,
`GetClientSet` prints `e`, calls `kubernetes.NewForConfig` on the nil
configuration and the process ends in a panic: nothing is returned and the
custom-resource step is never called, whether or not it would fail. -/
theorem C8_in_cluster_config_failure_panics (env : Environ) (lib : Lib Cfg Cli Mgs)
    (e : String)
    (hsel : env "RUN_IN_K8S" = none ∨ env "RUN_IN_K8S" = some "" ∨
      env "RUN_IN_K8S" = some "true")
    (hfail : lib.InClusterConfig = ⟨none, some e⟩) :
    GetClientSet env lib =
      ⟨[Event.InClusterConfig, Event.Println e, Event.KubernetesNewForConfig none,
        Event.Panic nilDereference], none⟩ ∧
    (GetClientSet env lib).result = none ∧
    (∀ c, Event.MgsNewForConfig c ∉ (GetClientSet env lib).trace) := by
  have hsel2 : Getenv env "RUN_IN_K8S" = "" ∨ Getenv env "RUN_IN_K8S" = "true" := by
    unfold Getenv
    rcases hsel with h | h | h <;> simp [h]
  have hrun : GetClientSet env lib =
      ⟨[Event.InClusterConfig, Event.Println e, Event.KubernetesNewForConfig none,
        Event.Panic nilDereference], none⟩ := by
    unfold GetClientSet
    simp only [hsel2, if_true, hfail, printErr]
    rfl
  rw [hrun]
  simp

/-- C8, evaluated: with `RUN_IN_K8S` unset in a process outside of a cluster,
where the custom-resource step would succeed, the run ends in a panic after
printing the error of `rest.InClusterConfig`. -/
theorem C8_in_cluster_config_failure_panics_witness :
    GetClientSet (fun _ => none) notInClusterLib =
      ⟨[Event.InClusterConfig, Event.Println ErrNotInCluster,
        Event.KubernetesNewForConfig none, Event.Panic nilDereference], none⟩ ∧
    (notInClusterLib.MgsNewForConfig 1).err = none :=
  ⟨(C8_in_cluster_config_failure_panics (fun _ => none) notInClusterLib ErrNotInCluster
      (Or.inl rfl) rfl).1, rfl⟩

end FactoryTheorems

end K8sHelpers

namespace K8sHelpers

/-! ## Decimal rendering: lemmas for claim C10 -/

theorem digitChar_isDigit (d : Nat) (h : d < 10) : (digitChar d).isDigit = true := by
  interval_cases d <;> decide

theorem digitChar_toNat (d : Nat) (h : d < 10) : (digitChar d).toNat - 48 = d := by
  interval_cases d <;> decide

theorem formatBitsLoop_all_digits (fuel u : Nat) (acc : List Char)
    (hacc : acc.all Char.isDigit = true) :
    (formatBitsLoop fuel u acc).all Char.isDigit = true := by
  induction fuel generalizing u acc with
  | zero => simpa [formatBitsLoop] using hacc
  | succ fuel ih =>
    unfold formatBitsLoop
    split
    · next h => simp [digitChar_isDigit u h, hacc]
    · apply ih
      simp [digitChar_isDigit (u % 10) (Nat.mod_lt _ (by decide)), hacc]

theorem formatBitsLoop_ne_nil (fuel u : Nat) (acc : List Char)
    (h : 0 < fuel ∨ acc ≠ []) : formatBitsLoop fuel u acc ≠ [] := by
  induction fuel generalizing u acc with
  | zero =>
    rcases h with h | h
    · omega
    · simpa [formatBitsLoop] using h
  | succ fuel ih =>
    unfold formatBitsLoop
    split
    · simp
    · exact ih _ _ (Or.inr (by simp))

theorem formatBitsLoop_value (fuel u : Nat) (acc : List Char) (h : u < fuel) :
    (formatBitsLoop fuel u acc).foldl (fun a c => 10 * a + (c.toNat - 48)) 0 =
      acc.foldl (fun a c => 10 * a + (c.toNat - 48)) u := by
  induction fuel generalizing u acc with
  | zero => omega
  | succ fuel ih =>
    unfold formatBitsLoop
    split
    · next hu => simp [digitChar_toNat u hu]
    · next hu =>
      rw [ih (u / 10) _ (by omega)]
      simp only [List.foldl_cons, digitChar_toNat (u % 10) (Nat.mod_lt _ (by decide))]
      congr 1
      omega

theorem parseDigits_formatBits (u : Nat) : parseDigits (formatBits u) = some u := by
  unfold parseDigits formatBits
  have h1 := formatBitsLoop_ne_nil (u + 1) u [] (Or.inl (by omega))
  have h2 := formatBitsLoop_all_digits (u + 1) u [] (by simp)
  have h3 := formatBitsLoop_value (u + 1) u [] (by omega)
  rw [if_pos ⟨h1, h2⟩, h3]
  simp

theorem formatBits_head (u : Nat) :
    ∃ c cs, formatBits u = c :: cs ∧ c ≠ '-' ∧ c ≠ '+' := by
  have h1 := formatBitsLoop_ne_nil (u + 1) u [] (Or.inl (by omega))
  have h2 := formatBitsLoop_all_digits (u + 1) u [] (by simp)
  unfold formatBits
  cases hfb : formatBitsLoop (u + 1) u [] with
  | nil => exact absurd hfb h1
  | cons c cs =>
    rw [hfb] at h2
    simp only [List.all_cons, Bool.and_eq_true] at h2
    refine ⟨c, cs, rfl, ?_, ?_⟩
    · rintro rfl
      exact absurd h2.1 (by decide)
    · rintro rfl
      exact absurd h2.1 (by decide)

theorem parseDecimal_Itoa (i : Int) : parseDecimal (Itoa i) = some i := by
  unfold Itoa
  split
  · next hneg =>
    simp only [parseDecimal, if_true, parseDigits_formatBits, Option.map_some',
      Int.ofNat_eq_coe]
    congr 1
    omega
  · next hpos =>
    obtain ⟨c, cs, hcs, h1, h2⟩ := formatBits_head i.natAbs
    have hp := parseDigits_formatBits i.natAbs
    rw [hcs] at hp
    simp only [parseDecimal, hcs, if_neg h1, if_neg h2, hp, Option.map_some',
      Int.ofNat_eq_coe]
    congr 1
    omega

theorem digitChar_eq (d : Nat) (h : d < 10) : digitChar d = Nat.digitChar d := by
  interval_cases d <;> decide

theorem formatBitsLoop_eq_toDigitsCore (fuel u : Nat) (acc : List Char) :
    formatBitsLoop fuel u acc = Nat.toDigitsCore 10 fuel u acc := by
  induction fuel generalizing u acc with
  | zero => simp [formatBitsLoop, Nat.toDigitsCore]
  | succ fuel ih =>
    unfold formatBitsLoop Nat.toDigitsCore
    by_cases hu : u < 10
    · have h0 : u / 10 = 0 := by omega
      have hm : u % 10 = u := by omega
      simp [hu, h0, hm, digitChar_eq u hu]
    · have h0 : u / 10 ≠ 0 := by omega
      simp [hu, h0, ih, digitChar_eq (u % 10) (Nat.mod_lt _ (by decide))]

/-- The model of `strconv.Itoa` agrees with the standard decimal rendering. -/
theorem Itoa_eq_toString (i : Int) : Itoa i = toString i := by
  unfold Itoa formatBits
  cases i with
  | ofNat n =>
    have : ¬ (Int.ofNat n < 0) := by simp
    rw [if_neg this]
    simp [formatBitsLoop_eq_toDigitsCore, toString, Nat.repr, Nat.toDigits, List.asString]
  | negSucc n =>
    have : Int.negSucc n < 0 := Int.negSucc_lt_zero n
    rw [if_pos this]
    simp [formatBitsLoop_eq_toDigitsCore, toString, Nat.repr, Nat.toDigits, List.asString]
    apply String.ext
    simp

theorem Itoa_injective (i j : Int) (h : Itoa i = Itoa j) : i = j := by
  have hi := parseDecimal_Itoa i
  rw [h, parseDecimal_Itoa j] at hi
  exact (Option.some.inj hi).symm

/-- C10: for every `udpPort` in the `int32` range the literal value of the
`OA_PORT` entry is the base-10 rendering of `udpPort`; read back as a decimal
integer it is the `ContainerPort` of the single container port of the Pod and
the `Port` of the Service built with the same port; two Pods built with
different ports have different `OA_PORT` entries. -/
theorem C10_port_rendering (name : String) (udpPort : Int) (callbackURL : String)
    (_hport : inInt32 udpPort) :
    ∃ c cp sp value,
      (NewPod name udpPort callbackURL).Spec.Containers = [c] ∧ c.Ports = [cp] ∧
      (NewService name udpPort).Spec.Ports = [sp] ∧
      envEntries c.Env "OA_PORT" = [{ Name := "OA_PORT", Value := value }] ∧
      value = Itoa udpPort ∧
      value = toString udpPort ∧
      parseDecimal value = some udpPort ∧
      parseDecimal value = some cp.ContainerPort ∧
      parseDecimal value = some sp.Port ∧
      ∀ (name2 : String) (port2 : Int) (url2 : String), inInt32 port2 → port2 ≠ udpPort →
        ∃ c2, (NewPod name2 port2 url2).Spec.Containers = [c2] ∧
          envEntries c2.Env "OA_PORT" ≠ envEntries c.Env "OA_PORT" := by
  refine ⟨_, _, _, Itoa udpPort, rfl, rfl, rfl, ?_, rfl, Itoa_eq_toString udpPort,
    parseDecimal_Itoa udpPort, parseDecimal_Itoa udpPort, parseDecimal_Itoa udpPort, ?_⟩
  · simp [envEntries, List.filter]
  · intro name2 port2 url2 _ hne
    refine ⟨_, rfl, ?_⟩
    simp only [envEntries, List.filter]
    intro h
    simp at h
    exact hne (Itoa_injective _ _ h)

/-- C10, evaluated at the least `int32`: the `OA_PORT` value of the Pod is
`-2147483648`, which reads back as the port. -/
theorem C10_port_rendering_witness :
    inInt32 (-2147483648) ∧
    ∃ c cp sp value,
      (NewPod "arena-1" (-2147483648) "http://sessions.svc/set").Spec.Containers = [c] ∧
      c.Ports = [cp] ∧
      (NewService "arena-1" (-2147483648)).Spec.Ports = [sp] ∧
      envEntries c.Env "OA_PORT" = [{ Name := "OA_PORT", Value := value }] ∧
      value = Itoa (-2147483648) ∧
      value = toString (-2147483648 : Int) ∧
      parseDecimal value = some (-2147483648) ∧
      parseDecimal value = some cp.ContainerPort ∧
      parseDecimal value = some sp.Port ∧
      ∀ (name2 : String) (port2 : Int) (url2 : String), inInt32 port2 →
        port2 ≠ -2147483648 →
        ∃ c2, (NewPod name2 port2 url2).Spec.Containers = [c2] ∧
          envEntries c2.Env "OA_PORT" ≠ envEntries c.Env "OA_PORT" :=
  ⟨by decide, C10_port_rendering "arena-1" (-2147483648) "http://sessions.svc/set" (by decide)⟩

/-! ## The flag helper: claim C9 -/

theorem pathClean_ne_nil (path : List Char) : pathClean path ≠ [] := by
  unfold pathClean
  split
  · simp
  · simp only []
    split <;> (split <;> simp_all)

theorem Join_ne_empty (e : String) (es : List String) (h : e ≠ "") : Join (e :: es) ≠ "" := by
  unfold Join
  rw [if_pos h]
  intro hj
  have hd := congrArg String.data hj
  exact pathClean_ne_nil _ hd

/-- In `cleanLoop` any fuel that is at least the length of the remaining
path gives the same result: the loop never stops for lack of fuel. -/
theorem cleanLoop_fuel (rooted : Bool) (n : Nat) :
    ∀ (path : List Char), path.length ≤ n → ∀ (f g : Nat) (out : List Char) (dotdot : Nat),
      path.length ≤ f → path.length ≤ g →
      cleanLoop rooted f path out dotdot = cleanLoop rooted g path out dotdot := by
  induction n with
  | zero =>
    intro path hn f g out dotdot _ _
    have hp : path = [] := List.length_eq_zero.mp (by omega)
    subst hp
    cases f <;> cases g <;> simp [cleanLoop]
  | succ n ih =>
    intro path hn f g out dotdot hf hg
    cases path with
    | nil => cases f <;> cases g <;> simp [cleanLoop]
    | cons c rest =>
      have hrest : rest.length ≤ n := by simpa using hn
      have htail : rest.tail.length ≤ rest.length := by simp
      have hdrop : (rest.dropWhile (fun x => decide (x ≠ '/'))).length ≤ rest.length :=
        (List.dropWhile_sublist _).length_le
      cases f with
      | zero => simp at hf
      | succ f =>
        cases g with
        | zero => simp at hg
        | succ g =>
          have hf1 : rest.length ≤ f := by simpa using hf
          have hg1 : rest.length ≤ g := by simpa using hg
          simp only [cleanLoop]
          split
          · exact ih rest hrest f g _ _ hf1 hg1
          · split
            · exact ih rest hrest f g _ _ hf1 hg1
            · split
              · split
                · exact ih rest.tail (by omega) f g _ _ (by omega) (by omega)
                · split
                  · exact ih rest.tail (by omega) f g _ _ (by omega) (by omega)
                  · exact ih rest.tail (by omega) f g _ _ (by omega) (by omega)
              · exact ih _ (by omega) f g _ _ (by omega) (by omega)

theorem takeWhile_name (s rest : List Char) (hs : '/' ∉ s)
    (hrest : rest = [] ∨ rest.head? = some '/') :
    (s ++ rest).takeWhile (fun x => decide (x ≠ '/')) = s := by
  induction s with
  | nil =>
    rcases hrest with h | h
    · simp [h]
    · cases rest with
      | nil => simp
      | cons r rs =>
        simp only [List.head?_cons, Option.some.injEq] at h
        simp [h]
  | cons c s ih =>
    have hc : c ≠ '/' := fun h => hs (by simp [h])
    have hs2 : '/' ∉ s := fun h => hs (by simp [h])
    have hd : decide (c ≠ '/') = true := by simpa using hc
    rw [List.cons_append, List.takeWhile_cons, hd, if_pos rfl, ih hs2]

theorem dropWhile_name (s rest : List Char) (hs : '/' ∉ s)
    (hrest : rest = [] ∨ rest.head? = some '/') :
    (s ++ rest).dropWhile (fun x => decide (x ≠ '/')) = rest := by
  induction s with
  | nil =>
    rcases hrest with h | h
    · simp [h]
    · cases rest with
      | nil => simp
      | cons r rs =>
        simp only [List.head?_cons, Option.some.injEq] at h
        simp [h]
  | cons c s ih =>
    have hc : c ≠ '/' := fun h => hs (by simp [h])
    have hs2 : '/' ∉ s := fun h => hs (by simp [h])
    have hd : decide (c ≠ '/') = true := by simpa using hc
    rw [List.cons_append, List.dropWhile_cons, hd, if_pos rfl, ih hs2]

theorem slashed_head (ss : List (List Char)) :
    slashed ss = [] ∨ (slashed ss).head? = some '/' := by
  cases ss <;> simp [slashed]

theorem slashed_append (as bs : List (List Char)) :
    slashed (as ++ bs) = slashed as ++ slashed bs := by
  induction as with
  | nil => simp [slashed]
  | cons a as ih => simp [slashed, ih]

/-- One round of `cleanLoop` on a plain name: the name is copied to the
output, after a separator when the output already holds an element. -/
theorem cleanLoop_name (rooted : Bool) (fuel : Nat) (s rest out : List Char) (dotdot : Nat)
    (hs : ordinaryName s) (hrest : rest = [] ∨ rest.head? = some '/') :
    cleanLoop rooted (fuel + 1) (s ++ rest) out dotdot =
      cleanLoop rooted fuel rest
        ((if (rooted = true ∧ out.length ≠ 1) ∨ (rooted = false ∧ out.length ≠ 0) then
            out ++ ['/'] else out) ++ s) dotdot := by
  obtain ⟨hne, hsep, hdot, hdotdot⟩ := hs
  cases s with
  | nil => exact absurd rfl hne
  | cons c s =>
    have hc : c ≠ '/' := fun h => hsep (by simp [h])
    have hs2 : '/' ∉ s := fun h => hsep (by simp [h])
    have h2 : ¬ (c = '.' ∧ (s ++ rest = [] ∨ (s ++ rest).head? = some '/')) := by
      rintro ⟨rfl, h⟩
      cases s with
      | nil => exact hdot rfl
      | cons d s =>
        rcases h with h | h
        · simp at h
        · simp only [List.cons_append, List.head?_cons, Option.some.injEq] at h
          exact hs2 (by simp [h])
    have h3 : ¬ (c = '.' ∧ (s ++ rest).head? = some '.' ∧
        ((s ++ rest).tail = [] ∨ (s ++ rest).tail.head? = some '/')) := by
      rintro ⟨rfl, hd, h⟩
      cases s with
      | nil =>
        rcases hrest with hr | hr
        · simp [hr] at hd
        · simp only [List.nil_append] at hd
          rw [hr] at hd
          exact absurd hd (by decide)
      | cons d s =>
        simp only [List.cons_append, List.head?_cons, Option.some.injEq] at hd
        subst hd
        cases s with
        | nil => exact hdotdot rfl
        | cons e s =>
          simp only [List.cons_append, List.tail_cons, List.head?_cons, Option.some.injEq] at h
          rcases h with h | h
          · simp at h
          · exact hs2 (by simp [h])
    simp only [List.cons_append, cleanLoop, if_neg hc, if_neg h2, if_neg h3,
      takeWhile_name s rest hs2 hrest, dropWhile_name s rest hs2 hrest]

/-- On the text `/s1/.../sn` of plain names `cleanLoop` copies the text to an
output that already holds an element. -/
theorem cleanLoop_slashed (rooted : Bool) (ss : List (List Char))
    (hss : ∀ x ∈ ss, ordinaryName x) :
    ∀ (fuel : Nat) (out : List Char) (dotdot : Nat), (slashed ss).length ≤ fuel →
      ((rooted = true ∧ out.length ≠ 1) ∨ (rooted = false ∧ out.length ≠ 0)) →
      cleanLoop rooted fuel (slashed ss) out dotdot = out ++ slashed ss := by
  induction ss with
  | nil =>
    intro fuel out dotdot _ _
    cases fuel <;> simp [slashed, cleanLoop]
  | cons s ss ih =>
    intro fuel out dotdot hfuel hout
    have hs : ordinaryName s := hss s (by simp)
    have hlen : 0 < s.length := List.length_pos.mpr hs.1
    simp only [slashed, List.length_cons, List.length_append] at hfuel
    obtain ⟨f, rfl⟩ : ∃ f, fuel = f + 2 := ⟨fuel - 2, by omega⟩
    have hstep : cleanLoop rooted (f + 2) (slashed (s :: ss)) out dotdot =
        cleanLoop rooted (f + 1) (s ++ slashed ss) out dotdot := by
      simp [slashed, cleanLoop]
    rw [hstep, cleanLoop_name rooted f s (slashed ss) out dotdot hs (slashed_head ss),
      if_pos hout, ih (fun x hx => hss x (by simp [hx])) f _ dotdot (by omega)]
    · simp [slashed]
    · cases rooted
      · right
        refine ⟨rfl, ?_⟩
        simp
      · left
        refine ⟨rfl, ?_⟩
        simp only [List.length_append, List.length_cons, List.length_nil]
        omega

/-- A path made of plain names, rooted or not, is left as it is by
`filepath.Clean`. -/
theorem pathClean_names (rooted : Bool) (s : List Char) (ss : List (List Char))
    (hs : ordinaryName s) (hss : ∀ x ∈ ss, ordinaryName x) :
    pathClean ((if rooted = true then ['/'] else []) ++ s ++ slashed ss) =
      (if rooted = true then ['/'] else []) ++ s ++ slashed ss := by
  have hlen : 0 < s.length := List.length_pos.mpr hs.1
  obtain ⟨c, s1, rfl⟩ : ∃ c s1, s = c :: s1 := by
    cases s with
    | nil => exact absurd rfl hs.1
    | cons c s1 => exact ⟨c, s1, rfl⟩
  have hc : c ≠ '/' := fun h => hs.2.1 (by simp [h])
  have hrun : ∀ (rooted : Bool) (fuel : Nat) (out : List Char) (dotdot : Nat),
      (c :: s1 ++ slashed ss).length ≤ fuel →
      ¬ ((rooted = true ∧ out.length ≠ 1) ∨ (rooted = false ∧ out.length ≠ 0)) →
      cleanLoop rooted fuel (c :: s1 ++ slashed ss) out dotdot =
        out ++ (c :: s1 ++ slashed ss) := by
    intro rooted fuel out dotdot hfuel hout
    simp only [List.length_append, List.length_cons] at hfuel
    obtain ⟨f, rfl⟩ : ∃ f, fuel = f + 1 := ⟨fuel - 1, by omega⟩
    rw [cleanLoop_name rooted f (c :: s1) (slashed ss) out dotdot hs (slashed_head ss),
      if_neg hout, cleanLoop_slashed rooted ss hss f _ dotdot (by omega)]
    · simp
    · cases rooted
      · right
        refine ⟨rfl, ?_⟩
        simp
      · left
        refine ⟨rfl, ?_⟩
        have hone : out.length = 1 := by simpa using hout
        simp [hone]
  cases rooted with
  | true =>
    have hp : (if true = true then ['/'] else []) ++ (c :: s1) ++ slashed ss =
        '/' :: (c :: s1 ++ slashed ss) := by simp
    rw [hp]
    have h := hrun true ('/' :: (c :: s1 ++ slashed ss)).length ['/'] 1 (by simp) (by simp)
    unfold pathClean
    rw [if_neg (by simp)]
    simp only [List.head?_cons, decide_True, if_true, List.tail_cons]
    rw [h]
    simp
  | false =>
    have hp : (if false = true then ['/'] else []) ++ (c :: s1) ++ slashed ss =
        c :: s1 ++ slashed ss := by simp
    rw [hp]
    have h := hrun false (c :: s1 ++ slashed ss).length [] 0 (by simp) (by simp)
    have hhead : decide ((c :: s1 ++ slashed ss).head? = some '/') = false := by
      simpa using hc
    unfold pathClean
    rw [if_neg (by simp)]
    simp only [hhead, Bool.false_eq_true, if_false]
    rw [h]
    simp

/-- The flag default when the home directory is a path of plain names:
`filepath.Join` puts a separator between the elements and changes nothing
else. -/
theorem Join_home_names (home : String) (rooted : Bool) (s : List Char)
    (ss : List (List Char)) (hs : ∀ x ∈ s :: ss, ordinaryName x)
    (hhome : home.data = (if rooted = true then ['/'] else []) ++ s ++ slashed ss) :
    Join [home, ".kube", "config"] = home ++ "/.kube/config" := by
  have hne : home ≠ "" := by
    intro h
    have hs1 := (hs s (by simp)).1
    rw [h] at hhome
    have hl := congrArg List.length hhome
    have : 0 < s.length := List.length_pos.mpr hs1
    simp at hl
    omega
  have hkube : ordinaryName ".kube".data := by decide
  have hconfig : ordinaryName "config".data := by decide
  have hdata : (String.intercalate "/" [home, ".kube", "config"]).data =
      (if rooted = true then ['/'] else []) ++ s ++
        slashed (ss ++ [".kube".data, "config".data]) := by
    simp [String.intercalate, String.intercalate.go, hhome, slashed_append, slashed]
  have hall : ∀ x ∈ ss ++ [".kube".data, "config".data], ordinaryName x := by
    intro x hx
    rcases List.mem_append.mp hx with h | h
    · exact hs x (by simp [h])
    · simp only [List.mem_cons, List.mem_singleton, List.not_mem_nil, or_false] at h
      rcases h with rfl | rfl
      · exact hkube
      · exact hconfig
  unfold Join
  rw [if_pos hne, hdata, pathClean_names rooted s _ (hs s (by simp)) hall]
  apply String.ext
  simp [hhome, slashed_append, slashed]

/-- The cleaning done by `filepath.Join`, at two home directories that are
not paths of plain names: the root and a directory written with a trailing
separator. -/
theorem CreateKubeConfig_cleaned :
    (CreateKubeConfig "/").DefValue = "/.kube/config" ∧
    (CreateKubeConfig "/home/user/").DefValue = "/home/user/.kube/config" := by
  decide

/-- C9: `CreateKubeConfig` registers the flag `kubeconfig`; its default value
is `filepath.Join(home, ".kube", "config")` whenever the home directory is a
non-empty string and the empty string when it is empty, so the default is
empty if and only if the home directory is empty. For every home directory
that is a path of plain names, rooted (`/s1/../sn`) or not (`s1/../sn`), the
default is the home directory followed by `/.kube/config`. -/
theorem C9_kubeconfig_flag_default (home : String) :
    (CreateKubeConfig home).Name = "kubeconfig" ∧
    (home ≠ "" → (CreateKubeConfig home).DefValue = Join [home, ".kube", "config"]) ∧
    (home = "" → (CreateKubeConfig home).DefValue = "") ∧
    ((CreateKubeConfig home).DefValue = "" ↔ home = "") ∧
    (∀ (rooted : Bool) (s : List Char) (ss : List (List Char)),
      (∀ x ∈ s :: ss, ordinaryName x) →
      home.data = (if rooted = true then ['/'] else []) ++ s ++ slashed ss →
      (CreateKubeConfig home).DefValue = home ++ "/.kube/config") := by
  refine ⟨?_, ?_, ?_, ?_, ?_⟩
  · unfold CreateKubeConfig
    split <;> rfl
  · intro h
    simp [CreateKubeConfig, h]
  · intro h
    simp [CreateKubeConfig, h]
  · unfold CreateKubeConfig
    by_cases h : home = ""
    · simp [h]
    · simp [h, Join_ne_empty home _ h]
  · intro rooted s ss hs hhome
    have hj := Join_home_names home rooted s ss hs hhome
    have hne : home ≠ "" := by
      intro h
      rw [h] at hj
      exact absurd hj (by decide)
    simp [CreateKubeConfig, hne, hj]

/-- C9, evaluated: the home directory `/home/user` is the rooted path of the
plain names `home` and `user`, and the default value of the flag is
`/home/user/.kube/config`. -/
theorem C9_kubeconfig_flag_default_witness :
    "/home/user" ≠ "" ∧
    (∀ x ∈ ["home".data, "user".data], ordinaryName x) ∧
    (CreateKubeConfig "/home/user").DefValue = Join ["/home/user", ".kube", "config"] ∧
    (CreateKubeConfig "/home/user").DefValue = "/home/user/.kube/config" :=
  ⟨by decide, by decide,
    (C9_kubeconfig_flag_default "/home/user").2.1 (by decide),
    (C9_kubeconfig_flag_default "/home/user").2.2.2.2 true "home".data ["user".data]
      (by decide) (by decide)⟩

end K8sHelpers
